import Mathlib

/-!
Verification of the FiftyOne client state layer (selectors module) and the
Flashlight Scrubber Indicator component, shallowly embedded in Lean 4.

Conventions of the embedding:
* JavaScript numbers are modelled as rationals (ℚ); millisecond timeouts as ℕ.
* A possibly-absent value (undefined / null) is an Option; where JavaScript
  coerces null to 0 in arithmetic or ordering, the helper jsNum makes the
  coercion explicit.
* JavaScript objects used as string-keyed dictionaries are association lists
  (List (String × _)) with unique keys maintained by the update operations,
  mirroring insertion-order key semantics.
* Array.prototype.reduce is List.foldl; Number(x.toFixed 2) is toFixed2
  (round to nearest hundredth, ties away from the smaller value, per the
  ECMAScript toFixed specification which picks the larger candidate on ties).
-/

namespace FiftyOne

/-- JavaScript numeric coercion of a possibly-null number: null coerces to 0. -/
def jsNum : Option ℚ → ℚ
  | some q => q
  | none => 0

/-- Number(x.toFixed 2): round x to 2 decimal places, ties toward the larger
candidate, as ECMAScript toFixed does. -/
def toFixed2 (x : ℚ) : ℚ := (⌊100 * x + 1/2⌋ : ℤ) / 100

/-! ## HTTPSSocket (long-polling fallback)

The class keeps a readyState (WebSocket constants) and a polling timeout in
milliseconds.  gather() polls; on failure it marks the socket closed and
reschedules with timeout := min (timeout * 2) 5000; on success it calls
execute, which, when the socket was CLOSED or CONNECTING, resets the timeout
to the 2000 ms openTimeout and marks the socket OPEN. -/

def wsConnecting : Nat := 0
def wsOpen : Nat := 1
def wsClosed : Nat := 3

structure SocketState where
  readyState : Nat
  timeout : Nat
  deriving DecidableEq, Repr

/-- Initial HTTPSSocket state: the constructor leaves readyState = CONNECTING
and timeout = 2000 (= openTimeout). -/
def socketInit : SocketState := { readyState := wsConnecting, timeout := 2000 }

/-- The openTimeout field, fixed at construction. -/
def openTimeout : Nat := 2000

/-- Effect on the socket state of the catch branch of HTTPSSocket.gather:
readyState becomes CLOSED and the rescheduled timeout is
min (timeout * 2) 5000. -/
def gatherFail (s : SocketState) : SocketState :=
  { readyState := wsClosed, timeout := min (s.timeout * 2) 5000 }

/-- Effect on the socket state of HTTPSSocket.execute (a successful poll):
when the socket was CLOSED or CONNECTING the timeout is reset to openTimeout;
in every case readyState becomes OPEN. -/
def execute (s : SocketState) : SocketState :=
  if s.readyState = wsClosed ∨ s.readyState = wsConnecting then
    { readyState := wsOpen, timeout := openTimeout }
  else
    { s with readyState := wsOpen }

/-- Poll outcomes observable in the socket state machine. -/
inductive PollEvent where
  | fail
  | success
  deriving DecidableEq, Repr

/-- One step of the socket state machine. -/
def socketStep (e : PollEvent) (s : SocketState) : SocketState :=
  match e with
  | .fail => gatherFail s
  | .success => execute s

/-- Run the socket state machine over a list of poll outcomes. -/
def socketRun (es : List PollEvent) (s : SocketState) : SocketState :=
  es.foldl (fun acc e => socketStep e acc) s

/-- k consecutive gather failures from a state. -/
def failIter : Nat → SocketState → SocketState
  | 0, s => s
  | k + 1, s => failIter k (gatherFail s)

/-- The timeout bounds invariant of the socket state machine. -/
def socketInv (s : SocketState) : Prop :=
  2000 ≤ s.timeout ∧ s.timeout ≤ 5000

lemma socketStep_inv (e : PollEvent) (s : SocketState) (h : socketInv s) :
    socketInv (socketStep e s) := by
  cases e with
  | fail =>
    simp only [socketInv, socketStep, gatherFail] at *
    omega
  | success =>
    simp only [socketInv, socketStep, execute] at *
    split
    · simp [openTimeout]
    · exact h

lemma socketRun_inv (es : List PollEvent) (s : SocketState) (h : socketInv s) :
    socketInv (socketRun es s) := by
  induction es generalizing s with
  | nil => exact h
  | cons e es ih => exact ih _ (socketStep_inv e s h)

lemma failIter_timeout (k : Nat) (r t : Nat) (h : t ≤ 5000) :
    (failIter k { readyState := r, timeout := t }).timeout =
      min (t * 2 ^ k) 5000 := by
  induction k generalizing r t with
  | zero => simp [failIter]; omega
  | succ k ih =>
    show (failIter k (gatherFail { readyState := r, timeout := t })).timeout = _
    rw [show gatherFail { readyState := r, timeout := t } =
      { readyState := wsClosed, timeout := min (t * 2) 5000 } from rfl]
    rw [ih wsClosed (min (t * 2) 5000) (min_le_right _ _)]
    rcases Nat.le_total (t * 2) 5000 with h2 | h2
    · rw [min_eq_left h2, Nat.pow_succ]
      ring_nf
    · rw [min_eq_right h2]
      have h3 : 5000 ≤ 5000 * 2 ^ k := Nat.le_mul_of_pos_right _ (Nat.pos_pow_of_pos _ (by omega))
      have h4 : 5000 ≤ t * 2 ^ (k + 1) := by
        calc 5000 ≤ t * 2 := h2
        _ ≤ t * 2 * 2 ^ k := Nat.le_mul_of_pos_right _ (Nat.pos_pow_of_pos _ (by omega))
        _ = t * 2 ^ (k + 1) := by rw [Nat.pow_succ]; ring
      rw [min_eq_right h3, min_eq_right h4]

/-- C2 counterexample: a single failed poll from the initial state already
changes the timeout from 2000 ms to 4000 ms, so the timeout does not stay
fixed at 2000 ms. -/
theorem c2_counterexample :
    (gatherFail socketInit).timeout = 4000 ∧
      ¬ (gatherFail socketInit).timeout = 2000 := by
  constructor <;> decide

/-- C2 (amended): each failed poll in HTTPSSocket.gather doubles the polling
timeout with a cap of 5000 ms, so after k consecutive failures from the
initial state the timeout is min (2000 * 2 ^ k) 5000 rather than staying
fixed at 2000 ms. -/
theorem c2_amended_backoff (k : Nat) :
    (failIter k socketInit).timeout = min (2000 * 2 ^ k) 5000 :=
  failIter_timeout k wsConnecting 2000 (by omega)

/-- C10: across every sequence of poll failures and successes the HTTPSSocket
polling timeout stays within [2000, 5000] ms; moreover each gather failure
doubles it with a cap of 5000 ms, and a successful poll resets it to the
2000 ms open timeout exactly when the socket was disconnected (CLOSED or
CONNECTING). -/
theorem c10_socket_timeout_bounds (es : List PollEvent) :
    (2000 ≤ (socketRun es socketInit).timeout ∧
      (socketRun es socketInit).timeout ≤ 5000) ∧
    (∀ s : SocketState,
      (socketStep .fail s).timeout = min (s.timeout * 2) 5000 ∧
      (socketStep .success s).timeout =
        (if s.readyState = wsClosed ∨ s.readyState = wsConnecting
          then openTimeout else s.timeout)) := by
  refine ⟨socketRun_inv es socketInit (by constructor <;> decide), ?_⟩
  intro s
  refine ⟨rfl, ?_⟩
  simp only [socketStep, execute]
  split <;> rfl

/-! ## Dataset statistics entries

The datasetStats / extendedDatasetStats atoms hold a list of aggregation
result objects.  Each entry has a name, an aggregation class tag, and,
depending on the class, a count or a pair of (possibly null) bounds. -/

structure Entry where
  name : String
  cls : String
  count : Option ℚ
  bounds : Option ℚ × Option ℚ
  deriving DecidableEq, Repr

def COUNT_CLS : String := "fiftyone.core.aggregations.CountResult"
def LABELS_CLS : String := "fiftyone.core.aggregations.DistinctLabelsResult"
def BOUNDS_CLS : String := "fiftyone.core.aggregations.BoundsResult"
def CONFIDENCE_BOUNDS_CLS : String :=
  "fiftyone.core.aggregations.ConfidenceBoundsResult"

/-- The totalCount selector: (get(atoms.datasetStats) or []) reduced with
acc := cur.count when cur.name is "count", starting from null. -/
def totalCount (datasetStats : Option (List Entry)) : Option ℚ :=
  (datasetStats.getD []).foldl
    (fun acc cur => if cur.name = "count" then cur.count else acc) none

/-- The filteredCount selector: the same reduction over
(get(atoms.extendedDatasetStats) or []). -/
def filteredCount (extendedDatasetStats : Option (List Entry)) : Option ℚ :=
  (extendedDatasetStats.getD []).foldl
    (fun acc cur => if cur.name = "count" then cur.count else acc) none

/-- Processing of a matching ConfidenceBoundsResult entry inside the
labelConfidenceBounds reduction, with JavaScript null-coercion in the
comparisons 0 < bounds[0] and 1 > bounds[1]. -/
def confBoundsProcess (b : Option ℚ × Option ℚ) : Option ℚ × Option ℚ :=
  let w1 : Option ℚ := if 0 < jsNum b.1 then some 0 else b.1
  let w2 : Option ℚ := if 1 > jsNum b.2 then some 1 else b.2
  ( match w1 with
    | some x => if x ≠ 0 then some (toFixed2 (x - 1/100)) else some x
    | none => none,
    match w2 with
    | some x => if x ≠ 1 then some (toFixed2 (x + 1/100)) else some x
    | none => none )

/-- The labelConfidenceBounds selector family: reduce the dataset stats,
replacing the accumulator with the processed bounds of each entry whose name
is the label and whose _CLS is ConfidenceBoundsResult, starting from
[null, null]. -/
def labelConfidenceBounds (label : String) (stats : List Entry) :
    Option ℚ × Option ℚ :=
  stats.foldl
    (fun acc cur =>
      if cur.name = label ∧ cur.cls = CONFIDENCE_BOUNDS_CLS then
        confBoundsProcess cur.bounds
      else acc)
    (none, none)

lemma foldl_update_eq_find {α β : Type} (p : α → Prop) [DecidablePred p]
    (f : α → β) (l : List α) (init : β) :
    l.foldl (fun acc cur => if p cur then f cur else acc) init =
      ((l.reverse.find? (fun a => decide (p a))).map f).getD init := by
  induction l generalizing init with
  | nil => rfl
  | cons a l ih =>
    rw [List.foldl_cons, ih, List.reverse_cons, List.find?_append]
    cases h : l.reverse.find? (fun a => decide (p a)) with
    | some b => simp
    | none =>
      simp only [Option.or, List.find?]
      by_cases hp : p a <;> simp [hp]

lemma confBoundsProcess_some (b0 b1 : ℚ) :
    confBoundsProcess (some b0, some b1) =
      (some (if min 0 b0 ≠ 0 then toFixed2 (min 0 b0 - 1/100) else min 0 b0),
       some (if max 1 b1 ≠ 1 then toFixed2 (max 1 b1 + 1/100) else max 1 b1)) := by
  have hm : min (0:ℚ) b0 = if 0 < b0 then 0 else b0 := by
    rcases lt_or_le 0 b0 with h | h
    · simp [h, min_eq_left h.le]
    · simp [not_lt.mpr h, min_eq_right h]
  have hM : max (1:ℚ) b1 = if 1 > b1 then 1 else b1 := by
    rcases lt_or_le b1 1 with h | h
    · simp [h, max_eq_left h.le]
    · simp [not_lt.mpr h, max_eq_right h]
  rcases lt_or_le (0:ℚ) b0 with h0 | h0 <;>
    rcases lt_or_le b1 (1:ℚ) with h1 | h1 <;>
      simp [confBoundsProcess, jsNum, hm, hM, h0, h1, not_lt.mpr,
        apply_ite Option.some]

/-- C8: totalCount returns the count value of the last entry named "count" in
the dataset stats list (null when the stats are missing or no entry is named
"count"), and filteredCount computes the same function over the extended
dataset stats. -/
theorem c8_count_selectors
    (datasetStats extendedDatasetStats : Option (List Entry)) :
    totalCount datasetStats =
      (((datasetStats.getD []).reverse.find?
          (fun e => decide (e.name = "count"))).map Entry.count).getD none ∧
    filteredCount extendedDatasetStats = totalCount extendedDatasetStats := by
  refine ⟨?_, rfl⟩
  exact foldl_update_eq_find (fun e => e.name = "count") Entry.count
    (datasetStats.getD []) none

/-- C3: when the last dataset-stats entry for a label with class
ConfidenceBoundsResult reports numeric bounds [b0, b1], the
labelConfidenceBounds selector first widens them to include [0, 1] (lower
min 0 b0, upper max 1 b1), then pads a lower bound different from 0 by
subtracting 0.01 and an upper bound different from 1 by adding 0.01, each
rounded to two decimal places; with no matching entry it returns
[null, null]. -/
theorem c3_labelConfidenceBounds (label : String) (stats : List Entry)
    (e : Entry) (b0 b1 : ℚ)
    (hfind : stats.reverse.find?
      (fun cur => decide (cur.name = label ∧ cur.cls = CONFIDENCE_BOUNDS_CLS))
        = some e)
    (hb : e.bounds = (some b0, some b1)) :
    labelConfidenceBounds label stats =
      (some (if min 0 b0 ≠ 0 then toFixed2 (min 0 b0 - 1/100) else min 0 b0),
       some (if max 1 b1 ≠ 1 then toFixed2 (max 1 b1 + 1/100) else max 1 b1)) ∧
    ∀ stats2 : List Entry,
      stats2.reverse.find?
        (fun cur => decide (cur.name = label ∧ cur.cls = CONFIDENCE_BOUNDS_CLS))
          = none →
      labelConfidenceBounds label stats2 = (none, none) := by
  constructor
  · rw [labelConfidenceBounds,
      foldl_update_eq_find
        (fun cur => cur.name = label ∧ cur.cls = CONFIDENCE_BOUNDS_CLS)
        (fun cur => confBoundsProcess cur.bounds) stats (none, none),
      hfind]
    show confBoundsProcess e.bounds = _
    rw [hb]
    exact confBoundsProcess_some b0 b1
  · intro stats2 h2
    rw [labelConfidenceBounds,
      foldl_update_eq_find
        (fun cur => cur.name = label ∧ cur.cls = CONFIDENCE_BOUNDS_CLS)
        (fun cur => confBoundsProcess cur.bounds) stats2 (none, none),
      h2]
    rfl

/-- A concrete ConfidenceBoundsResult entry with bounds [-1, 2]. -/
def c3entry : Entry :=
  ⟨"pred", CONFIDENCE_BOUNDS_CLS, none, (some (-1), some 2)⟩

/-- A concrete dataset stats list holding c3entry. -/
def c3stats : List Entry := [c3entry]

/-- Witness for C3 at a concrete stats list with bounds [-1, 2]. -/
theorem c3_labelConfidenceBounds_witness :
    (c3stats.reverse.find?
        (fun cur =>
          decide (cur.name = "pred" ∧ cur.cls = CONFIDENCE_BOUNDS_CLS))
        = some c3entry ∧
      c3entry.bounds = (some (-1), some 2)) ∧
    (labelConfidenceBounds "pred" c3stats =
      (some (if min 0 (-1 : ℚ) ≠ 0 then toFixed2 (min 0 (-1 : ℚ) - 1/100)
              else min 0 (-1 : ℚ)),
       some (if max 1 (2 : ℚ) ≠ 1 then toFixed2 (max 1 (2 : ℚ) + 1/100)
              else max 1 (2 : ℚ))) ∧
      ∀ stats2 : List Entry,
        stats2.reverse.find?
          (fun cur =>
            decide (cur.name = "pred" ∧ cur.cls = CONFIDENCE_BOUNDS_CLS))
            = none →
        labelConfidenceBounds "pred" stats2 = (none, none)) :=
  ⟨⟨by decide, rfl⟩,
    c3_labelConfidenceBounds "pred" c3stats c3entry (-1) 2
      (by decide) rfl⟩

/-! ## Dataset schema

A field of the dataset schema: a name, a field type, and an optional
embedded document type. -/

structure Field where
  name : String
  ftype : String
  embedded_doc_type : Option String
  deriving DecidableEq, Repr

/-- The dataset part of the state description. -/
structure Dataset where
  sample_fields : List Field
  frame_fields : List Field
  media_type : String
  deriving DecidableEq, Repr

/-! ## Filter stages

A filter stage is a JSON object with optional keys range, none and labels.
resolveFilter always builds these keys in the fixed order range, none,
labels, so JSON equality of filter values coincides with structural equality
of this record. -/

structure Filter where
  range : Option (Option ℚ × Option ℚ)
  none : Option Bool
  labels : Option (List String)
  deriving DecidableEq, Repr

/-- The empty JSON object used as the filterStage getter default. -/
def emptyFilter : Filter := ⟨Option.none, Option.none, Option.none⟩

/-- resolveFilter from the selectors module: drops the range (and none) keys
when the range equals the bounds pointwise, keeps none only when it is false
in that case, keeps labels only when non-null and non-empty, and returns
null when no key remains. -/
def resolveFilter (bounds range : Option ℚ × Option ℚ) (noneFlag : Bool)
    (labels : Option (List String)) : Option Filter :=
  let defaultRange := range.1 = bounds.1 ∧ range.2 = bounds.2
  if defaultRange ∧ noneFlag = true ∧
      (labels = Option.none ∨ (labels.getD []).length = 0) then
    Option.none
  else
    let f : Filter :=
      { range := if ¬ defaultRange then some range else Option.none,
        none :=
          if ¬ defaultRange then some noneFlag
          else if defaultRange ∧ noneFlag = false then some noneFlag
          else Option.none,
        labels :=
          match labels with
          | some ls => if ls.length > 0 then some ls else Option.none
          | Option.none => Option.none }
    if f ≠ emptyFilter then some f else Option.none

inductive Msg where
  | filtersUpdate (filters : List (String × Filter))
  deriving DecidableEq, Repr

structure StateDescription where
  dataset : Option Dataset
  filters : List (String × Filter)
  view : List String
  deriving DecidableEq, Repr

structure AppState where
  stateDescription : StateDescription
  datasetStats : List Entry
  extendedDatasetStatsLoading : Bool
  sent : List Msg
  deriving DecidableEq, Repr

/-- Key lookup in a string-keyed JSON object. -/
def lookupFilter (filters : List (String × Filter)) (path : String) :
    Option Filter :=
  (filters.find? (fun kv => kv.1 = path)).map (fun kv => kv.2)

/-- JavaScript property assignment filters[path] = v: replaces the value in
place when the key exists, appends the key otherwise. -/
def setKey (filters : List (String × Filter)) (path : String) (v : Filter) :
    List (String × Filter) :=
  if filters.any (fun kv => kv.1 = path) then
    filters.map (fun kv => if kv.1 = path then (path, v) else kv)
  else filters ++ [(path, v)]

/-- JavaScript delete filters[path]. -/
def delKey (filters : List (String × Filter)) (path : String) :
    List (String × Filter) :=
  filters.filter (fun kv => decide (kv.1 ≠ path))

/-- The filterStages setter: it sends a filters_update message over the
socket, marks the extended stats as loading and replaces the filters of the
state description, leaving its other fields intact. -/
def filterStagesSet (filters : List (String × Filter)) (st : AppState) :
    AppState :=
  { st with
    stateDescription := { st.stateDescription with filters := filters },
    extendedDatasetStatsLoading := true,
    sent := st.sent ++ [Msg.filtersUpdate filters] }

/-- The filterStage getter: the stored filter at the path, or the empty
object. -/
def filterStageGet (path : String) (st : AppState) : Filter :=
  (lookupFilter st.stateDescription.filters path).getD emptyFilter

/-- The filterStage setter: a no-op when the value is falsy and no filter is
stored, or when the JSON serialization of value equals the stored filter;
otherwise it deletes the key (falsy value) or assigns it, and pushes the new
filters through the filterStages setter. -/
def filterStageSet (path : String) (value : Option Filter) (st : AppState) :
    AppState :=
  let filters := st.stateDescription.filters
  let existing := lookupFilter filters path
  if value = Option.none ∧ existing = Option.none then st
  else if value.isSome ∧ existing.isSome ∧ value = existing then st
  else
    match value with
    | Option.none => filterStagesSet (delKey filters path) st
    | some v => filterStagesSet (setKey filters path v) st

/-- The filterLabelConfidenceRange getter: the stored range if the filter
has one, otherwise the label confidence bounds. -/
def filterLabelConfidenceRangeGet (path : String) (st : AppState) :
    Option ℚ × Option ℚ :=
  match (filterStageGet path st).range with
  | some r => r
  | Option.none => labelConfidenceBounds path st.datasetStats

/-- The filterLabelIncludeNoConfidence getter: filter.none, defaulting to
true. -/
def filterLabelIncludeNoConfidenceGet (path : String) (st : AppState) :
    Bool :=
  ((filterStageGet path st).none).getD true

/-- The filterIncludeLabels getter: filter.labels, defaulting to []. -/
def filterIncludeLabelsGet (path : String) (st : AppState) : List String :=
  ((filterStageGet path st).labels).getD []

/-- The filterLabelConfidenceRange setter: resolve a filter from the current
bounds, the requested range and the other stored components, and store it
through filterStage. -/
def filterLabelConfidenceRangeSet (path : String)
    (range : Option ℚ × Option ℚ) (st : AppState) : AppState :=
  let bounds := labelConfidenceBounds path st.datasetStats
  let noneFlag := filterLabelIncludeNoConfidenceGet path st
  let labels := filterIncludeLabelsGet path st
  filterStageSet path (resolveFilter bounds range noneFlag (some labels)) st


lemma lookup_delKey (fs : List (String × Filter)) (path : String) :
    lookupFilter (delKey fs path) path = Option.none := by
  have h : List.find? (fun kv => decide (kv.1 = path)) (delKey fs path)
      = Option.none := by
    apply List.find?_eq_none.mpr
    intro x hx
    have hmem := List.of_mem_filter hx
    simp at hmem ⊢
    exact hmem
  simp [lookupFilter, h]

lemma find?_map_replace (fs : List (String × Filter)) (path : String)
    (v : Filter) (h : fs.any (fun kv => kv.1 = path)) :
    (fs.map (fun kv => if kv.1 = path then (path, v) else kv)).find?
        (fun kv => decide (kv.1 = path)) = some (path, v) := by
  induction fs with
  | nil => simp at h
  | cons kv fs ih =>
    by_cases hk : kv.1 = path
    · rw [List.map_cons, if_pos hk, List.find?_cons_of_pos _ (by simp)]
    · rw [List.map_cons, if_neg hk,
        List.find?_cons_of_neg _ (by simp [hk])]
      exact ih (by simpa [hk] using h)

lemma lookup_setKey (fs : List (String × Filter)) (path : String)
    (v : Filter) : lookupFilter (setKey fs path v) path = some v := by
  unfold lookupFilter setKey
  by_cases h : fs.any (fun kv => kv.1 = path)
  · rw [if_pos h, find?_map_replace fs path v h]
    rfl
  · rw [if_neg h, List.find?_append]
    have hnone : fs.find? (fun kv => decide (kv.1 = path)) = Option.none := by
      apply List.find?_eq_none.mpr
      intro x hx
      intro hpx
      apply h
      apply List.any_eq_true.mpr
      refine ⟨x, hx, ?_⟩
      simpa using hpx
    rw [hnone]
    simp [List.find?]

lemma lookup_after_set (path : String) (value : Option Filter)
    (st : AppState) :
    lookupFilter (filterStageSet path value st).stateDescription.filters path
      = value := by
  unfold filterStageSet
  by_cases h1 : value = Option.none ∧
      lookupFilter st.stateDescription.filters path = Option.none
  · rw [if_pos h1, h1.1, h1.2]
  · rw [if_neg h1]
    by_cases h2 : value.isSome ∧
        (lookupFilter st.stateDescription.filters path).isSome ∧
        value = lookupFilter st.stateDescription.filters path
    · rw [if_pos h2, h2.2.2]
    · rw [if_neg h2]
      cases value with
      | none => exact lookup_delKey _ _
      | some v => exact lookup_setKey _ _ _

lemma stats_after_set (path : String) (value : Option Filter)
    (st : AppState) :
    (filterStageSet path value st).datasetStats = st.datasetStats := by
  unfold filterStageSet
  by_cases h1 : value = Option.none ∧
      lookupFilter st.stateDescription.filters path = Option.none
  · rw [if_pos h1]
  · rw [if_neg h1]
    by_cases h2 : value.isSome ∧
        (lookupFilter st.stateDescription.filters path).isSome ∧
        value = lookupFilter st.stateDescription.filters path
    · rw [if_pos h2]
    · rw [if_neg h2]
      cases value <;> rfl

lemma resolveFilter_rangeField (B R : Option ℚ × Option ℚ)
    (noneFlag : Bool) (labels : Option (List String)) :
    ((resolveFilter B R noneFlag labels).getD emptyFilter).range =
      if R = B then Option.none else some R := by
  by_cases h : R = B
  · rw [if_pos h]
    subst h
    simp only [resolveFilter]
    split_ifs <;> simp_all [emptyFilter]
  · rw [if_neg h]
    have hdr : ¬ (R.1 = B.1 ∧ R.2 = B.2) := by
      intro hc
      exact h (Prod.ext hc.1 hc.2)
    simp only [resolveFilter]
    split_ifs <;> simp_all [emptyFilter]

/-- C4: reading filterLabelConfidenceRange immediately after setting it
returns the range that was set. -/
theorem c4_range_roundtrip (st : AppState) (path : String)
    (range : Option ℚ × Option ℚ) :
    filterLabelConfidenceRangeGet path
        (filterLabelConfidenceRangeSet path range st) = range := by
  simp only [filterLabelConfidenceRangeSet, filterLabelConfidenceRangeGet,
    filterStageGet]
  rw [lookup_after_set, stats_after_set, resolveFilter_rangeField]
  by_cases h : range = labelConfidenceBounds path st.datasetStats
  · rw [if_pos h]
    exact h.symm
  · rw [if_neg h]

/-- C5: setting filterStage to a JSON-equal value, or to a falsy value when
no filter is stored, is a no-op. -/
theorem c5_filterStage_noop (path : String) (value : Option Filter)
    (st : AppState)
    (h : (value = Option.none ∧
        lookupFilter st.stateDescription.filters path = Option.none) ∨
      (value.isSome ∧
        value = lookupFilter st.stateDescription.filters path)) :
    filterStageSet path value st = st ∧
    (filterStageSet path value st).stateDescription = st.stateDescription ∧
    (filterStageSet path value st).sent = st.sent := by
  have hst : filterStageSet path value st = st := by
    unfold filterStageSet
    rcases h with h | h
    · rw [if_pos h]
    · have h1 : ¬ (value = Option.none ∧
          lookupFilter st.stateDescription.filters path = Option.none) := by
        intro hc
        rw [hc.1] at h
        exact (Bool.false_ne_true) ((Option.isSome_none).symm.trans h.1)
      rw [if_neg h1, if_pos ⟨h.1, by rw [← h.2]; exact h.1, h.2⟩]
  exact ⟨hst, by rw [hst], by rw [hst]⟩

/-- A concrete application state with no stored filters. -/
def c5state : AppState := ⟨⟨Option.none, [], []⟩, [], false, []⟩

/-- Witness for C5: setting a falsy value at an unfiltered path in the empty
state is a no-op. -/
theorem c5_filterStage_noop_witness :
    (((Option.none : Option Filter) = Option.none ∧
        lookupFilter c5state.stateDescription.filters "confidence"
          = Option.none) ∨
      ((Option.none : Option Filter).isSome ∧
        (Option.none : Option Filter)
          = lookupFilter c5state.stateDescription.filters "confidence")) ∧
    (filterStageSet "confidence" Option.none c5state = c5state ∧
      (filterStageSet "confidence" Option.none c5state).stateDescription
        = c5state.stateDescription ∧
      (filterStageSet "confidence" Option.none c5state).sent
        = c5state.sent) :=
  ⟨Or.inl ⟨rfl, rfl⟩,
    c5_filterStage_noop "confidence" Option.none c5state (Or.inl ⟨rfl, rfl⟩)⟩


/-! ## Schema classification selectors -/

/-- JavaScript split on the "." separator, over the characters of the
string; empty pieces are kept, and splitting the empty string yields [""]. -/
def splitDotAux : List Char → List Char → List String
  | [], acc => [String.mk acc.reverse]
  | c :: cs, acc =>
    if c = '.' then String.mk acc.reverse :: splitDotAux cs []
    else splitDotAux cs (c :: acc)

def splitDot (s : String) : List String := splitDotAux s.data []

/-- split(".").slice(-1)[0]: the final dot-separated component. -/
def lastComponent (s : String) : String := (splitDot s).getLastD ""

/-- JavaScript truthiness of an optional string: absent and "" are falsy. -/
def jsTruthyStr : Option String → Bool
  | some s => s ≠ ""
  | Option.none => false

/-- The labelFilter predicate of the selectors module: the field has a
truthy embedded_doc_type whose final dot component is a valid label type.
VALID_LABEL_TYPES is imported from ../utils/labels, which is not part of
this repository snapshot, so it is passed as a parameter. -/
def labelFilter (validLabelTypes : List String) (f : Field) : Bool :=
  jsTruthyStr f.embedded_doc_type &&
    lastComponent (f.embedded_doc_type.getD "") ∈ validLabelTypes

/-- The scalarFilter predicate: the field type is a valid scalar type.
VALID_SCALAR_TYPES is likewise a parameter. -/
def scalarFilter (validScalarTypes : List String) (f : Field) : Bool :=
  f.ftype ∈ validScalarTypes

/-- JavaScript property assignment acc[f.name] = f for the fields reduce:
replaces in place when the name exists, appends otherwise. -/
def upsertField (acc : List Field) (f : Field) : List Field :=
  if acc.any (fun g => g.name = f.name) then
    acc.map (fun g => if g.name = f.name then f else g)
  else acc ++ [f]

/-- The fields selector: the schema reduced into an object keyed by field
name (represented as the list of its values in key insertion order). -/
def fieldsList (schema : List Field) : List Field :=
  schema.foldl upsertField []

/-- The two dimensions of the fields/labels/scalars selector families. -/
inductive Dimension where
  | sample
  | frame
  deriving DecidableEq, Repr

/-- The fieldSchema selector family: dataset[dimension + "_fields"] or []. -/
def fieldSchema (dim : Dimension) (sd : StateDescription) : List Field :=
  match sd.dataset with
  | some d =>
    match dim with
    | .sample => d.sample_fields
    | .frame => d.frame_fields
  | Option.none => []

/-- The fields selector family over the state description. -/
def fields (dim : Dimension) (sd : StateDescription) : List Field :=
  fieldsList (fieldSchema dim sd)

/-- The mediaType selector: dataset.media_type when a dataset is present. -/
def mediaType (sd : StateDescription) : Option String :=
  sd.dataset.map Dataset.media_type

/-- The labels selector family: the field values filtered by labelFilter. -/
def labels (validLabelTypes : List String) (dim : Dimension)
    (sd : StateDescription) : List Field :=
  (fields dim sd).filter (labelFilter validLabelTypes)

/-- The labelNames selector family. -/
def labelNames (validLabelTypes : List String) (dim : Dimension)
    (sd : StateDescription) : List String :=
  (labels validLabelTypes dim sd).map Field.name

/-- The scalars selector family: the field values filtered by scalarFilter. -/
def scalars (validScalarTypes : List String) (dim : Dimension)
    (sd : StateDescription) : List Field :=
  (fields dim sd).filter (scalarFilter validScalarTypes)

/-- The scalarNames selector family. -/
def scalarNames (validScalarTypes : List String) (dim : Dimension)
    (sd : StateDescription) : List String :=
  (scalars validScalarTypes dim sd).map Field.name

/-- The fieldPaths selector: non-private sample field names, plus the
frames.-prefixed non-private frame field names for video datasets, sorted
with the default lexicographic string comparator. -/
def fieldPaths (sd : StateDescription) : List String :=
  let fieldsNames := ((fields .sample sd).map Field.name).filter
    (fun f => !f.startsWith "_")
  if mediaType sd = some "video" then
    (fieldsNames ++
        (((fields .frame sd).map Field.name).filter
            (fun f => !f.startsWith "_")).map
          (fun f => "frames." ++ f)).mergeSort (fun a b => decide (a ≤ b))
  else fieldsNames.mergeSort (fun a b => decide (a ≤ b))

lemma foldl_upsert (schema : List Field) (acc : List Field)
    (hnd : (schema.map Field.name).Nodup)
    (hdisj : ∀ g ∈ acc, g.name ∉ schema.map Field.name) :
    schema.foldl upsertField acc = acc ++ schema := by
  induction schema generalizing acc with
  | nil => simp
  | cons f schema ih =>
    rw [List.map_cons, List.nodup_cons] at hnd
    obtain ⟨hfn, hnd'⟩ := hnd
    have hany : ¬ acc.any (fun g => g.name = f.name) = true := by
      intro h
      obtain ⟨g, hg, hgf⟩ := List.any_eq_true.mp h
      apply hdisj g hg
      simp only [List.map_cons, List.mem_cons]
      exact Or.inl (by simpa using hgf)
    have hdisj' : ∀ g ∈ acc ++ [f], g.name ∉ schema.map Field.name := by
      intro g hg
      rcases List.mem_append.mp hg with hg | hg
      · intro hmem
        apply hdisj g hg
        simp only [List.map_cons, List.mem_cons]
        exact Or.inr hmem
      · rw [List.mem_singleton.mp hg]
        exact hfn
    rw [List.foldl_cons, upsertField, if_neg hany,
      ih (acc ++ [f]) hnd' hdisj', List.append_assoc]
    rfl

lemma fieldsList_eq (schema : List Field)
    (hnd : (schema.map Field.name).Nodup) : fieldsList schema = schema := by
  have h := foldl_upsert schema [] hnd (by simp)
  simpa [fieldsList] using h

lemma labelFilter_iff (vlt : List String) (hne : "" ∉ vlt) (f : Field) :
    labelFilter vlt f = true ↔
      ∃ s, f.embedded_doc_type = some s ∧ lastComponent s ∈ vlt := by
  cases h : f.embedded_doc_type with
  | none => simp [labelFilter, jsTruthyStr, h]
  | some s =>
    by_cases hs : s = ""
    · subst hs
      have hlast : lastComponent "" = "" := rfl
      simp [labelFilter, jsTruthyStr, h, hlast, hne]
    · simp [labelFilter, jsTruthyStr, h, hs]

/-- C6: label fields are exactly the schema fields with a present
embedded_doc_type whose final dot-separated component is a valid label
type, and scalar fields are exactly those whose ftype is a valid scalar
type; labelNames and scalarNames are their names. -/
theorem c6_field_classification (validLabelTypes validScalarTypes : List String)
    (sd : StateDescription) (dim : Dimension)
    (hnd : ((fieldSchema dim sd).map Field.name).Nodup)
    (hne : "" ∉ validLabelTypes) :
    (∀ f : Field, f ∈ labels validLabelTypes dim sd ↔
        f ∈ fieldSchema dim sd ∧
          ∃ s, f.embedded_doc_type = some s ∧
            lastComponent s ∈ validLabelTypes) ∧
    (∀ n : String, n ∈ labelNames validLabelTypes dim sd ↔
        ∃ f ∈ fieldSchema dim sd, f.name = n ∧
          ∃ s, f.embedded_doc_type = some s ∧
            lastComponent s ∈ validLabelTypes) ∧
    (∀ f : Field, f ∈ scalars validScalarTypes dim sd ↔
        f ∈ fieldSchema dim sd ∧ f.ftype ∈ validScalarTypes) ∧
    (∀ n : String, n ∈ scalarNames validScalarTypes dim sd ↔
        ∃ f ∈ fieldSchema dim sd, f.name = n ∧
          f.ftype ∈ validScalarTypes) := by
  have hfields : fields dim sd = fieldSchema dim sd := fieldsList_eq _ hnd
  have hlab : ∀ f : Field, f ∈ labels validLabelTypes dim sd ↔
      f ∈ fieldSchema dim sd ∧
        ∃ s, f.embedded_doc_type = some s ∧
          lastComponent s ∈ validLabelTypes := by
    intro f
    rw [labels, hfields, List.mem_filter, labelFilter_iff _ hne]
  have hsca : ∀ f : Field, f ∈ scalars validScalarTypes dim sd ↔
      f ∈ fieldSchema dim sd ∧ f.ftype ∈ validScalarTypes := by
    intro f
    rw [scalars, hfields, List.mem_filter]
    simp [scalarFilter]
  refine ⟨hlab, ?_, hsca, ?_⟩
  · intro n
    rw [labelNames, List.mem_map]
    constructor
    · rintro ⟨f, hf, rfl⟩
      obtain ⟨hmem, hpred⟩ := (hlab f).mp hf
      exact ⟨f, hmem, rfl, hpred⟩
    · rintro ⟨f, hmem, rfl, hpred⟩
      exact ⟨f, (hlab f).mpr ⟨hmem, hpred⟩, rfl⟩
  · intro n
    rw [scalarNames, List.mem_map]
    constructor
    · rintro ⟨f, hf, rfl⟩
      obtain ⟨hmem, hpred⟩ := (hsca f).mp hf
      exact ⟨f, hmem, rfl, hpred⟩
    · rintro ⟨f, hmem, rfl, hpred⟩
      exact ⟨f, (hsca f).mpr ⟨hmem, hpred⟩, rfl⟩

/-- C9: fieldPaths is sorted in ascending lexicographic order and is a
permutation of the non-private sample field names, extended for video
datasets with the frames.-prefixed non-private frame field names. -/
theorem c9_fieldPaths (sd : StateDescription)
    (hs : ((fieldSchema .sample sd).map Field.name).Nodup)
    (hf : ((fieldSchema .frame sd).map Field.name).Nodup) :
    (fieldPaths sd).Sorted (fun a b => a ≤ b) ∧
    List.Perm (fieldPaths sd)
      ((((fieldSchema .sample sd).map Field.name).filter
          (fun f => !f.startsWith "_")) ++
        (if mediaType sd = some "video" then
          (((fieldSchema .frame sd).map Field.name).filter
              (fun f => !f.startsWith "_")).map (fun f => "frames." ++ f)
        else [])) := by
  haveI : IsTotal String (fun a b => a ≤ b) := ⟨fun a b => le_total a b⟩
  have hfs : fields .sample sd = fieldSchema .sample sd := fieldsList_eq _ hs
  have hff : fields .frame sd = fieldSchema .frame sd := fieldsList_eq _ hf
  by_cases hv : mediaType sd = some "video"
  · rw [fieldPaths]
    simp only [hfs, hff, if_pos hv]
    exact ⟨List.sorted_mergeSort' _, List.mergeSort_perm _ _⟩
  · rw [fieldPaths]
    simp only [hfs, hff, if_neg hv, List.append_nil]
    exact ⟨List.sorted_mergeSort' _, List.mergeSort_perm _ _⟩

/-- A concrete state description with one label field and one scalar field. -/
def c6sd : StateDescription :=
  ⟨some ⟨[⟨"ground_truth", "fiftyone.core.fields.EmbeddedDocumentField",
        some "fiftyone.core.labels.Classification"⟩,
      ⟨"uniqueness", "fiftyone.core.fields.FloatField", Option.none⟩],
    [], "image"⟩, [], []⟩

/-- Witness for C6 at a concrete schema and concrete type lists. -/
theorem c6_field_classification_witness :
    (((fieldSchema .sample c6sd).map Field.name).Nodup ∧
      "" ∉ ["Classification"]) ∧
    ((∀ f : Field, f ∈ labels ["Classification"] .sample c6sd ↔
        f ∈ fieldSchema .sample c6sd ∧
          ∃ s, f.embedded_doc_type = some s ∧
            lastComponent s ∈ ["Classification"]) ∧
    (∀ n : String, n ∈ labelNames ["Classification"] .sample c6sd ↔
        ∃ f ∈ fieldSchema .sample c6sd, f.name = n ∧
          ∃ s, f.embedded_doc_type = some s ∧
            lastComponent s ∈ ["Classification"]) ∧
    (∀ f : Field, f ∈ scalars ["fiftyone.core.fields.FloatField"] .sample c6sd ↔
        f ∈ fieldSchema .sample c6sd ∧
          f.ftype ∈ ["fiftyone.core.fields.FloatField"]) ∧
    (∀ n : String,
        n ∈ scalarNames ["fiftyone.core.fields.FloatField"] .sample c6sd ↔
        ∃ f ∈ fieldSchema .sample c6sd, f.name = n ∧
          f.ftype ∈ ["fiftyone.core.fields.FloatField"])) :=
  ⟨⟨by decide, by decide⟩,
    c6_field_classification ["Classification"]
      ["fiftyone.core.fields.FloatField"] c6sd .sample (by decide) (by decide)⟩

/-- A concrete video state description with sample and frame fields. -/
def c9sd : StateDescription :=
  ⟨some ⟨[⟨"filepath", "fiftyone.core.fields.StringField", Option.none⟩,
      ⟨"_id", "fiftyone.core.fields.ObjectIdField", Option.none⟩],
    [⟨"gt", "fiftyone.core.fields.EmbeddedDocumentField", Option.none⟩],
    "video"⟩, [], []⟩

/-- Witness for C9 at a concrete video dataset. -/
theorem c9_fieldPaths_witness :
    (((fieldSchema .sample c9sd).map Field.name).Nodup ∧
      ((fieldSchema .frame c9sd).map Field.name).Nodup) ∧
    ((fieldPaths c9sd).Sorted (fun a b => a ≤ b) ∧
      List.Perm (fieldPaths c9sd)
        ((((fieldSchema .sample c9sd).map Field.name).filter
            (fun f => !f.startsWith "_")) ++
          (if mediaType c9sd = some "video" then
            (((fieldSchema .frame c9sd).map Field.name).filter
                (fun f => !f.startsWith "_")).map (fun f => "frames." ++ f)
          else []))) :=
  ⟨⟨by decide, by decide⟩, c9_fieldPaths c9sd (by decide) (by decide)⟩

/-! ## labelFilters (confidence/label filter predicates) -/

/-- A label object tested by the filter predicates: an optional confidence
and a label class string.  An absent confidence models the undefined case. -/
structure LObj where
  confidence : Option ℚ
  label : String
  deriving DecidableEq, Repr

/-- The predicate labelFilters builds for one active label path, translated
from the closure stored in filters[label]: in-range (with the 0.005 slack
and JavaScript null-coercion of the range endpoints, false for an undefined
confidence), or no-confidence when the include-no-confidence flag is set;
and the label is included when the include list is empty or contains it.
The include parameter of the source is named includeLabels here. -/
def labelFilterPred (range : Option ℚ × Option ℚ) (noneFlag : Bool)
    (includeLabels : List String) (s : LObj) : Bool :=
  let inRange :=
    match s.confidence with
    | some c =>
      decide (jsNum range.1 - 5/1000 ≤ c) &&
        decide (c ≤ jsNum range.2 + 5/1000)
    | Option.none => false
  let noConfidence := noneFlag && decide (s.confidence = Option.none)
  let isIncluded :=
    decide (includeLabels.length = 0) || decide (s.label ∈ includeLabels)
  (inRange || noConfidence) && isIncluded

/-- Generic JavaScript property assignment obj[k] = v on a string-keyed
object. -/
def upsertKey {β : Type} (acc : List (String × β)) (k : String) (v : β) :
    List (String × β) :=
  if acc.any (fun kv => kv.1 = k) then
    acc.map (fun kv => if kv.1 = k then (k, v) else kv)
  else acc ++ [(k, v)]

/-- Object spread {...a, ...b}. -/
def mergeObjs {β : Type} (a b : List (String × β)) : List (String × β) :=
  b.foldl (fun acc kv => upsertKey acc kv.1 kv.2) a

/-- Generic key lookup on a string-keyed object. -/
def lookupKey {β : Type} (l : List (String × β)) (k : String) : Option β :=
  (l.find? (fun kv => kv.1 = k)).map (fun kv => kv.2)

/-- The labelFilters selector: merge the active sample labels with the
frames.-prefixed active frame labels, and build a filter predicate for every
key of the merged object from the per-path confidence range,
include-no-confidence flag and include-labels list. -/
def labelFilters (activeSample activeFrame : List (String × Bool))
    (rangeOf : String → Option ℚ × Option ℚ) (noneOf : String → Bool)
    (includeOf : String → List String) : List (String × (LObj → Bool)) :=
  let framesPrefixed := activeFrame.map (fun kv => ("frames." ++ kv.1, kv.2))
  let labelsObj := mergeObjs (mergeObjs [] activeSample) framesPrefixed
  labelsObj.map (fun kv =>
    (kv.1, labelFilterPred (rangeOf kv.1) (noneOf kv.1) (includeOf kv.1)))

lemma lookupKey_mapped {β : Type} (l : List (String × Bool)) (g : String → β)
    (k : String) (p : β)
    (h : lookupKey (l.map (fun kv => (kv.1, g kv.1))) k = some p) :
    p = g k := by
  induction l with
  | nil => simp [lookupKey] at h
  | cons kv l ih =>
    rw [List.map_cons] at h
    by_cases hk : kv.1 = k
    · unfold lookupKey at h
      rw [List.find?_cons_of_pos _ (by simpa using hk)] at h
      simp only [Option.map_some'] at h
      rw [← Option.some_inj.mp h, hk]
    · unfold lookupKey at h
      rw [List.find?_cons_of_neg _ (by simpa using hk)] at h
      exact ih h

/-- C1: the predicate the labelFilters selector stores for an active label
path accepts an object s exactly when ((range[0] - 0.005 is at most
s.confidence and s.confidence is at most range[1] + 0.005) or the
include-no-confidence flag is set and s.confidence is undefined) and the
include-labels list is empty or contains s.label. -/
theorem c1_labelFilters (activeSample activeFrame : List (String × Bool))
    (rangeOf : String → Option ℚ × Option ℚ) (noneOf : String → Bool)
    (includeOf : String → List String) (path : String) (p : LObj → Bool)
    (hlook : lookupKey
      (labelFilters activeSample activeFrame rangeOf noneOf includeOf) path
        = some p)
    (q0 q1 : ℚ) (hr : rangeOf path = (some q0, some q1)) (s : LObj) :
    p s = true ↔
      (((∃ c, s.confidence = some c ∧
            q0 - 5/1000 ≤ c ∧ c ≤ q1 + 5/1000) ∨
          (noneOf path = true ∧ s.confidence = Option.none)) ∧
        (includeOf path = [] ∨ s.label ∈ includeOf path)) := by
  simp only [labelFilters] at hlook
  have hp : p = labelFilterPred (rangeOf path) (noneOf path) (includeOf path) :=
    lookupKey_mapped
      (mergeObjs (mergeObjs [] activeSample)
        (activeFrame.map (fun kv => ("frames." ++ kv.1, kv.2))))
      (fun k => labelFilterPred (rangeOf k) (noneOf k) (includeOf k))
      path p hlook
  subst hp
  rw [hr]
  cases hc : s.confidence with
  | none =>
    simp [labelFilterPred, jsNum, hc, List.length_eq_zero]
  | some c =>
    simp [labelFilterPred, jsNum, hc, List.length_eq_zero]

/-- Witness for C1 at a concrete active label and an object without
confidence. -/
theorem c1_labelFilters_witness :
    (lookupKey (labelFilters [("pred", true)] []
        (fun _ => ((some 0, some 1) : Option ℚ × Option ℚ))
        (fun _ => true) (fun _ => [])) "pred"
      = some (labelFilterPred (some 0, some 1) true []) ∧
      (fun _ : String => ((some 0, some 1) : Option ℚ × Option ℚ)) "pred"
        = (some 0, some 1)) ∧
    (labelFilterPred (some 0, some 1) true []
        ⟨Option.none, "cat"⟩ = true ↔
      (((∃ c, (Option.none : Option ℚ) = some c ∧
            (0:ℚ) - 5/1000 ≤ c ∧ c ≤ (1:ℚ) + 5/1000) ∨
          (true = true ∧ (Option.none : Option ℚ) = Option.none)) ∧
        (([] : List String) = [] ∨ "cat" ∈ ([] : List String)))) :=
  ⟨⟨rfl, rfl⟩,
    c1_labelFilters [("pred", true)] []
      (fun _ => ((some 0, some 1) : Option ℚ × Option ℚ)) (fun _ => true)
      (fun _ => ([] : List String)) "pred"
      (labelFilterPred (some 0, some 1) true []) rfl 0 1 rfl
      ⟨Option.none, "cat"⟩⟩

/-! ## Scrubber Indicator -/

/-- The gestureHandler of the Scrubber Indicator component: on pointer move
the spring y offset is set to min(mainSize[1] - 35, max(py - 16, 0)). -/
def gestureHandler (mainSize1 py : ℚ) : ℚ :=
  min (mainSize1 - 35) (max (py - 16) 0)

/-- C7: the Indicator pointer-move handler sets the y offset to
min(mainSize[1] - 35, max(py - 16, 0)), which lies within
[0, mainSize[1] - 35] whenever mainSize[1] is at least 35. -/
theorem c7_indicator_clamp (mainSize1 py : ℚ) (h : 35 ≤ mainSize1) :
    gestureHandler mainSize1 py = min (mainSize1 - 35) (max (py - 16) 0) ∧
    0 ≤ gestureHandler mainSize1 py ∧
    gestureHandler mainSize1 py ≤ mainSize1 - 35 := by
  refine ⟨rfl, ?_, min_le_left _ _⟩
  apply le_min
  · linarith
  · exact le_max_right _ _

/-- Witness for C7 at a concrete pointer position and container height. -/
theorem c7_indicator_clamp_witness :
    (35 : ℚ) ≤ 100 ∧
    (gestureHandler 100 3 = min ((100:ℚ) - 35) (max ((3:ℚ) - 16) 0) ∧
      0 ≤ gestureHandler 100 3 ∧
      gestureHandler 100 3 ≤ (100:ℚ) - 35) :=
  ⟨by norm_num, c7_indicator_clamp 100 3 (by norm_num)⟩
end FiftyOne
